import Mathlib

/-!
Verification development for the `ai-agents-and-agentic-ai-with-python`
repository.  The Python sources are embedded shallowly:

* `src/ai_agent_using_prompt_engineering.py`: `extract_markdown_block`,
  `parse_action`, `ToolExecutor`, the `Agent.tool_map` dispatch table and
  the `Agent.run` loop;
* `src/quasi_agent.py`: `QuasiAgent._extract_code_block`,
  `QuasiAgent._build_filename`, `QuasiAgent.develop_custom_function`;
* `src/core/game.py`: `Environment.execute_action` / `format_result`.

Python exceptions are modelled with `Except`: a `.error` value corresponds
to an uncaught Python exception, and `try/except` blocks are modelled by
matching on the `Except` value.  Python character/string predicates
(`str.isalnum`, `str.isspace`, `str.lower`) are modelled on the ASCII
range, which is the range every theorem and concrete evaluation below
stays in.
-/

/-- Characters used to stand for `\x7b`, `\x7d` and the backtick. -/
def lbrace : Char := Char.ofNat 123

/-- Right curly brace character. -/
def rbrace : Char := Char.ofNat 125

/-- Backtick character. -/
def btick : Char := Char.ofNat 96

/-- Python `str.isspace` for code points below `0x100` (the set of
characters Python treats as whitespace; beyond ASCII the Unicode
`White_Space`-like classes are not modelled). -/
def pyIsSpace (c : Char) : Bool :=
  c = ' ' || c = '\t' || c = '\n' || c = '\x0b' || c = '\x0c' || c = '\r' ||
  c = '\x1c' || c = '\x1d' || c = '\x1e' || c = '\x1f' ||
  c = '\x85' || c = '\xa0'

/-- Python `str.isalnum` restricted to the ASCII range (Unicode
alphanumerics outside ASCII are not modelled): digits `0`–`9`,
lowercase `a`–`z`, uppercase `A`–`Z` by code point. -/
def pyIsAlnum (c : Char) : Bool :=
  (48 ≤ c.toNat && c.toNat ≤ 57) || (97 ≤ c.toNat && c.toNat ≤ 122) ||
  (65 ≤ c.toNat && c.toNat ≤ 90)

/-- Python `str.lower` on a single character, ASCII range: shift
`A`–`Z` down to `a`–`z`. -/
def pyToLower (c : Char) : Char :=
  if 65 ≤ c.toNat && c.toNat ≤ 90 then Char.ofNat (c.toNat + 32) else c

/-- Python `str.strip()` on a list of characters. -/
def pyStripChars (l : List Char) : List Char :=
  ((l.dropWhile pyIsSpace).reverse.dropWhile pyIsSpace).reverse

/-- Python `str.strip()`. -/
def pyStrip (s : String) : String :=
  String.mk (pyStripChars s.toList)

/-- Python `needle in hay` for strings (substring test). -/
def containsSub (needle : List Char) : List Char → Bool
  | [] => needle.isEmpty
  | c :: rest => needle.isPrefixOf (c :: rest) || containsSub needle rest

/-- One-pass scanner behind the model of Python `str.split("```")`:
`pending` counts consecutive backticks seen so far (0–2, a third one
completes a separator), `cur` is the reversed piece being accumulated.
Separators are matched greedily left to right without overlap, exactly
like `str.split`. -/
def splitTicksAux : Nat → List Char → List Char → List (List Char)
  | pending, cur, [] => [(List.replicate pending btick ++ cur).reverse]
  | pending, cur, c :: rest =>
    if c = btick then
      if pending = 2 then cur.reverse :: splitTicksAux 0 [] rest
      else splitTicksAux (pending + 1) cur rest
    else splitTicksAux 0 (c :: (List.replicate pending btick ++ cur)) rest

/-- Python `response.split("```")`: split on every occurrence of three
backticks, keeping empty pieces. -/
def splitTicks (cs : List Char) : List (List Char) :=
  splitTicksAux 0 [] cs

/-- The elements of a list at odd indices (`range(1, len(parts), 2)`). -/
def oddParts : List α → List α
  | [] => []
  | [_] => []
  | _ :: b :: rest => b :: oddParts rest

/-- JSON values as produced by Python's `json.loads`.  Integer literals
become `num`; literals with a fraction or exponent (and the `NaN` /
`Infinity` constants) become Python floats, represented by their lexeme
in `fnum` (no claim depends on float arithmetic). -/
inductive Json where
  | null : Json
  | bool (b : Bool) : Json
  | num (n : Int) : Json
  | fnum (lexeme : String) : Json
  | str (s : String) : Json
  | arr (elems : List Json) : Json
  | obj (kvs : List (String × Json)) : Json

/-- Insertion into a Python dict being built from parsed JSON object
members: a repeated key keeps its original position and takes the new
value, matching `dict` semantics for duplicate keys in a JSON text. -/
def dictInsert (kvs : List (String × Json)) (k : String) (v : Json) :
    List (String × Json) :=
  if kvs.any (fun kv => kv.1 == k) then
    kvs.map (fun kv => if kv.1 == k then (k, v) else kv)
  else kvs ++ [(k, v)]

/-- JSON whitespace accepted between tokens by `json.loads`. -/
def jsonWS (c : Char) : Bool :=
  c = ' ' || c = '\t' || c = '\n' || c = '\r'

/-- Skip JSON whitespace. -/
def skipWS : List Char → List Char
  | [] => []
  | c :: cs => if jsonWS c then skipWS cs else c :: cs

/-- Value of a hexadecimal digit. -/
def hexDigitVal (c : Char) : Option Nat :=
  if '0' ≤ c && c ≤ '9' then some (c.toNat - 48)
  else if 'a' ≤ c && c ≤ 'f' then some (c.toNat - 87)
  else if 'A' ≤ c && c ≤ 'F' then some (c.toNat - 55)
  else none

/-- Single-character JSON string escapes. -/
def escMap (c : Char) : Option Char :=
  if c = '"' then some '"'
  else if c = '\\' then some '\\'
  else if c = '/' then some '/'
  else if c = 'b' then some '\x08'
  else if c = 'f' then some '\x0c'
  else if c = 'n' then some '\n'
  else if c = 'r' then some '\r'
  else if c = 't' then some '\t'
  else none

/-- Parse the body of a JSON string (the opening quote has been
consumed); returns the decoded characters and the rest of the input.
Surrogate-pair recombination of `\uXXXX` escapes is not modelled (no
claim depends on it). -/
def parseJString : List Char → Except String (List Char × List Char)
  | [] => Except.error "Unterminated string starting at"
  | c :: cs =>
    if c = '"' then Except.ok ([], cs)
    else if c = '\\' then
      match cs with
      | [] => Except.error "Unterminated string starting at"
      | e :: cs2 =>
        if e = 'u' then
          match cs2 with
          | h1 :: h2 :: h3 :: h4 :: cs3 =>
            match hexDigitVal h1, hexDigitVal h2, hexDigitVal h3, hexDigitVal h4 with
            | some a, some b, some c3, some d =>
              match parseJString cs3 with
              | Except.ok (tl, rest) =>
                Except.ok (Char.ofNat (a * 4096 + b * 256 + c3 * 16 + d) :: tl, rest)
              | Except.error m => Except.error m
            | _, _, _, _ => Except.error "Invalid \\uXXXX escape"
          | _ => Except.error "Invalid \\uXXXX escape"
        else
          match escMap e with
          | some d =>
            match parseJString cs2 with
            | Except.ok (tl, rest) => Except.ok (d :: tl, rest)
            | Except.error m => Except.error m
          | none => Except.error "Invalid \\escape"
    else if c.toNat < 32 then Except.error "Invalid control character"
    else
      match parseJString cs with
      | Except.ok (tl, rest) => Except.ok (c :: tl, rest)
      | Except.error m => Except.error m

/-- Take a maximal run of decimal digits. -/
def takeDigits : List Char → List Char × List Char
  | [] => ([], [])
  | c :: cs =>
    if c.isDigit then
      let (ds, r) := takeDigits cs
      (c :: ds, r)
    else ([], c :: cs)

/-- Accumulate decimal digits into a natural number. -/
def digitsToNatAux : Nat → List Char → Nat
  | acc, [] => acc
  | acc, c :: cs => digitsToNatAux (acc * 10 + (c.toNat - 48)) cs

/-- Parse a JSON number starting at the head of the input, following the
`NUMBER_RE` regex of Python's `json` scanner: `-?(0|[1-9]\d*)` with
optional `(\.\d+)` and `([eE][-+]?\d+)` groups; a number with a fraction
or exponent becomes a float (`fnum`), otherwise an int (`num`). -/
def parseNumber (cs : List Char) : Except String (Json × List Char) :=
  let (negChars, cs1) :=
    match cs with
    | c :: r => if c = '-' then ([c], r) else (([] : List Char), cs)
    | [] => ([], cs)
  match cs1 with
  | [] => Except.error "Expecting value"
  | c :: _ =>
    if c.isDigit = false then Except.error "Expecting value"
    else
      let (intPart, rest1) := if c = '0' then ([c], cs1.tail) else takeDigits cs1
      let (fracPart, rest2) :=
        match rest1 with
        | dot :: r =>
          if dot = '.' then
            match takeDigits r with
            | ([], _) => (([] : List Char), rest1)
            | (ds, r2) => (dot :: ds, r2)
          else ([], rest1)
        | [] => ([], rest1)
      let (expPart, rest3) :=
        match rest2 with
        | e :: r =>
          if e = 'e' || e = 'E' then
            let (sgn, r1) :=
              match r with
              | s :: r2 => if s = '+' || s = '-' then ([s], r2) else (([] : List Char), r)
              | [] => ([], r)
            match takeDigits r1 with
            | ([], _) => (([] : List Char), rest2)
            | (ds, r2) => (e :: (sgn ++ ds), r2)
          else ([], rest2)
        | [] => ([], rest2)
      if fracPart.isEmpty && expPart.isEmpty then
        let n : Int := Int.ofNat (digitsToNatAux 0 intPart)
        Except.ok (Json.num (if negChars.isEmpty then n else -n), rest1)
      else
        Except.ok (Json.fnum (String.mk (negChars ++ intPart ++ fracPart ++ expPart)), rest3)

/-- Match a literal token at the head of the input. -/
def stripLit (pre : List Char) (cs : List Char) : Option (List Char) :=
  match pre, cs with
  | [], rest => some rest
  | p :: ps, c :: rest => if c = p then stripLit ps rest else none
  | _ :: _, [] => none

mutual

/-- Parse one JSON value (fuelled recursive-descent scanner mirroring
Python's `json` module, including the non-standard `NaN`, `Infinity`
and `-Infinity` constants). -/
def parseVal : Nat → List Char → Except String (Json × List Char)
  | 0, _ => Except.error "Too deeply nested"
  | fuel + 1, cs =>
    match skipWS cs with
    | [] => Except.error "Expecting value"
    | c :: rest =>
      if c = '"' then
        match parseJString rest with
        | Except.ok (chars, r) => Except.ok (Json.str (String.mk chars), r)
        | Except.error m => Except.error m
      else if c = lbrace then parseMembers fuel rest [] true
      else if c = '[' then parseElems fuel rest [] true
      else
        match stripLit "true".toList (c :: rest) with
        | some r => Except.ok (Json.bool true, r)
        | none =>
        match stripLit "false".toList (c :: rest) with
        | some r => Except.ok (Json.bool false, r)
        | none =>
        match stripLit "null".toList (c :: rest) with
        | some r => Except.ok (Json.null, r)
        | none =>
        match stripLit "NaN".toList (c :: rest) with
        | some r => Except.ok (Json.fnum "NaN", r)
        | none =>
        match stripLit "Infinity".toList (c :: rest) with
        | some r => Except.ok (Json.fnum "Infinity", r)
        | none =>
        match stripLit "-Infinity".toList (c :: rest) with
        | some r => Except.ok (Json.fnum "-Infinity", r)
        | none => parseNumber (c :: rest)

/-- Parse array elements after `[`.  `first` is true before the first
element, where `]` is still allowed. -/
def parseElems : Nat → List Char → List Json → Bool → Except String (Json × List Char)
  | 0, _, _, _ => Except.error "Too deeply nested"
  | fuel + 1, cs, acc, first =>
    match skipWS cs with
    | [] => Except.error "Expecting value"
    | c :: rest =>
      if c = ']' && first then Except.ok (Json.arr [], rest)
      else
        match parseVal fuel (c :: rest) with
        | Except.error m => Except.error m
        | Except.ok (v, r) =>
          match skipWS r with
          | d :: r2 =>
            if d = ',' then parseElems fuel r2 (v :: acc) false
            else if d = ']' then Except.ok (Json.arr (v :: acc).reverse, r2)
            else Except.error "Expecting delimiter"
          | [] => Except.error "Expecting delimiter"

/-- Parse object members after the opening brace.  `first` is true
before the first member, where a closing brace is still allowed. -/
def parseMembers : Nat → List Char → List (String × Json) → Bool → Except String (Json × List Char)
  | 0, _, _, _ => Except.error "Too deeply nested"
  | fuel + 1, cs, acc, first =>
    match skipWS cs with
    | [] => Except.error "Expecting property name"
    | c :: rest =>
      if c = rbrace && first then Except.ok (Json.obj acc, rest)
      else if c = '"' then
        match parseJString rest with
        | Except.error m => Except.error m
        | Except.ok (kchars, r1) =>
          match skipWS r1 with
          | d :: r2 =>
            if d = ':' then
              match parseVal fuel r2 with
              | Except.error m => Except.error m
              | Except.ok (v, r3) =>
                match skipWS r3 with
                | d2 :: r4 =>
                  if d2 = ',' then
                    parseMembers fuel r4 (dictInsert acc (String.mk kchars) v) false
                  else if d2 = rbrace then
                    Except.ok (Json.obj (dictInsert acc (String.mk kchars) v), r4)
                  else Except.error "Expecting delimiter"
                | [] => Except.error "Expecting delimiter"
            else Except.error "Expecting colon delimiter"
          | [] => Except.error "Expecting colon delimiter"
      else Except.error "Expecting property name"

end

/-- The model of Python's `json.loads`: parse one value and require
that only whitespace remains (`Extra data` otherwise).  The fuel
`2 * length + 4` dominates the recursion depth, since every two nested
calls consume at least one input character. -/
def json_loads (s : String) : Except String Json :=
  match parseVal (2 * s.toList.length + 4) s.toList with
  | Except.error m => Except.error m
  | Except.ok (j, rest) =>
    match skipWS rest with
    | [] => Except.ok j
    | _ => Except.error "Extra data"

/-- Four-digit lowercase hexadecimal rendering used by `json.dumps`. -/
def hex4 (n : Nat) : String :=
  let d := fun k =>
    let v := n / k % 16
    if v < 10 then Char.ofNat (48 + v) else Char.ofNat (87 + v)
  String.mk [d 4096, d 256, d 16, d 1]

/-- Escape one character as `json.dumps` (default `ensure_ascii=True`)
does.  Code points above `0xFFFF` become a surrogate pair. -/
def escChar (c : Char) : String :=
  if c = '"' then "\\\""
  else if c = '\\' then "\\\\"
  else if c = '\n' then "\\n"
  else if c = '\t' then "\\t"
  else if c = '\r' then "\\r"
  else if c = '\x08' then "\\b"
  else if c = '\x0c' then "\\f"
  else if c.toNat < 32 then "\\u" ++ hex4 c.toNat
  else if c.toNat < 128 then String.mk [c]
  else if c.toNat < 65536 then "\\u" ++ hex4 c.toNat
  else
    let v := c.toNat - 65536
    "\\u" ++ hex4 (55296 + v / 1024) ++ "\\u" ++ hex4 (56320 + v % 1024)

/-- Concatenate with a separator (Python `sep.join`). -/
def joinSep (sep : String) : List String → String
  | [] => ""
  | [x] => x
  | x :: xs => x ++ sep ++ joinSep sep xs

mutual

/-- The model of Python's `json.dumps` with default separators
`", "` and `": "`. -/
def json_dumps : Json → String
  | Json.null => "null"
  | Json.bool true => "true"
  | Json.bool false => "false"
  | Json.num n => toString n
  | Json.fnum lexeme => lexeme
  | Json.str s => "\"" ++ joinSep "" (s.toList.map escChar) ++ "\""
  | Json.arr xs => "[" ++ joinSep ", " (dumpsList xs) ++ "]"
  | Json.obj kvs => "\x7b" ++ joinSep ", " (dumpsKVs kvs) ++ "\x7d"

/-- Serialize a list of JSON values. -/
def dumpsList : List Json → List String
  | [] => []
  | x :: xs => json_dumps x :: dumpsList xs

/-- Serialize the members of a JSON object. -/
def dumpsKVs : List (String × Json) → List String
  | [] => []
  | (k, v) :: kvs =>
    ("\"" ++ joinSep "" (k.toList.map escChar) ++ "\": " ++ json_dumps v) :: dumpsKVs kvs

end

/-- `extract_markdown_block(response, block_type)` from
`ai_agent_using_prompt_engineering.py`: if the text has no ``` fence it
is returned verbatim; otherwise the pieces at odd indices of the split
are scanned for the first one whose stripped text starts with
`block_type`, which is returned with the tag dropped and stripped;
with no match the whole text is returned stripped. -/
def extract_markdown_block (response : String) (block_type : String) : String :=
  match splitTicks response.toList with
  | [_] => response
  | parts =>
    match (oddParts parts).find? (fun p => block_type.toList.isPrefixOf (pyStripChars p)) with
    | some p => String.mk (pyStripChars ((pyStripChars p).drop block_type.length))
    | none => pyStrip response

/-- Python type name used in the `TypeError` raised by `x in y` on a
non-container `y`. -/
def pyTypeName : Json → String
  | Json.null => "NoneType"
  | Json.bool _ => "bool"
  | Json.num _ => "int"
  | Json.fnum _ => "float"
  | Json.str _ => "str"
  | Json.arr _ => "list"
  | Json.obj _ => "dict"

/-- Whether a parsed JSON value is a Python container for which the
`in` operator is defined (dict, list or str). -/
def isPyContainer : Json → Bool
  | Json.obj _ => true
  | Json.arr _ => true
  | Json.str _ => true
  | _ => false

/-- Total membership used by the specification side: key lookup on a
dict, element equality on a list, substring on a str. -/
def memberOf (key : String) : Json → Bool
  | Json.obj kvs => kvs.any (fun kv => kv.1 == key)
  | Json.arr xs => xs.any (fun j => match j with | Json.str t => t == key | _ => false)
  | Json.str t => containsSub key.toList t.toList
  | _ => false

/-- Python `key in j`: defined on containers, a `TypeError` otherwise. -/
def pyIn (key : String) (j : Json) : Except String Bool :=
  if isPyContainer j then Except.ok (memberOf key j)
  else Except.error ("TypeError: argument of type \x27" ++ pyTypeName j ++ "\x27 is not iterable")

/-- Message used by `parse_action` when the JSON text is malformed. -/
def malformedMsg : String := "Malformed JSON in action block."

/-- Message used by `parse_action` when a required field is missing. -/
def missingMsg : String := "Missing required fields in action JSON."

/-- The synthesized error action of `parse_action`. -/
def errorAction (msg : String) : Json :=
  Json.obj [("tool_name", Json.str "error"), ("args", Json.obj [("message", Json.str msg)])]

/-- `parse_action(response)`: extract the `action` block, decode it
with `json.loads` (only `json.JSONDecodeError` is caught), and require
`"tool_name" in response_json and "args" in response_json`; the
membership test itself can raise an uncaught `TypeError` when the
decoded value is not a container. -/
def parse_action (response : String) : Except String Json :=
  match json_loads (extract_markdown_block response "action") with
  | Except.error _ => Except.ok (errorAction malformedMsg)
  | Except.ok j =>
    match pyIn "tool_name" j with
    | Except.error e => Except.error e
    | Except.ok false => Except.ok (errorAction missingMsg)
    | Except.ok true =>
      match pyIn "args" j with
      | Except.error e => Except.error e
      | Except.ok false => Except.ok (errorAction missingMsg)
      | Except.ok true => Except.ok j

/-- A chat message (a Python `{"role": ..., "content": ...}` dict). -/
structure Message where
  role : String
  content : String

/-- Outcome of opening and reading a file, the environment-facing side
of `ToolExecutor.read_file`. -/
inductive ReadOutcome where
  | content (s : String) : ReadOutcome
  | notFound : ReadOutcome
  | raises (msg : String) : ReadOutcome

/-- The local filesystem an agent run sees: the `os.listdir(".")`
result and, for every file name, what `open`/`read` does. -/
structure FS where
  listing : List String
  read : String → ReadOutcome

/-- `ToolExecutor.list_files`. -/
def ToolExecutor.list_files (fs : FS) : List String :=
  fs.listing

/-- `ToolExecutor.read_file`: returns the file content, or the
`FileNotFoundError` message, or `"Error: " ++ str(e)` for any other
exception; it never propagates an exception. -/
def ToolExecutor.read_file (fs : FS) (file_name : String) : String :=
  match fs.read file_name with
  | ReadOutcome.content c => c
  | ReadOutcome.notFound => "Error: File \x27" ++ file_name ++ "\x27 not found."
  | ReadOutcome.raises msg => "Error: " ++ msg

/-- Python `str(e)` message of the `TypeError` raised by `open` on a
non-string argument inside `read_file` (caught by its generic
`except Exception` handler); the concrete interpreter wording is
abbreviated to its stable prefix. -/
def openTypeErrorMsg : String :=
  "expected str, bytes or os.PathLike object"

/-- `action.get(key)` in Python: defined on dicts (`None` when the key
is absent), an `AttributeError` on any other decoded value. -/
def pyGetMethod (action : Json) (key : String) : Except String (Option Json) :=
  match action with
  | Json.obj kvs => Except.ok ((kvs.find? (fun kv => kv.1 == key)).map (fun kv => kv.2))
  | _ => Except.error ("AttributeError: \x27" ++ pyTypeName action ++ "\x27 object has no attribute \x27get\x27")

/-- `args[key]` in Python: value or `KeyError` on a dict, `TypeError`
on anything else. -/
def pySubscript (args : Json) (key : String) : Except String Json :=
  match args with
  | Json.obj kvs =>
    match kvs.find? (fun kv => kv.1 == key) with
    | some kv => Except.ok kv.2
    | none => Except.error ("KeyError: \x27" ++ key ++ "\x27")
  | Json.str _ => Except.error "TypeError: string indices must be integers"
  | Json.arr _ => Except.error "TypeError: list indices must be integers"
  | j => Except.error ("TypeError: \x27" ++ pyTypeName j ++ "\x27 object is not subscriptable")

/-- Whether a decoded value may be used as a dict key
(`tool_map.get(tool_name, ...)` raises `TypeError` on dicts and lists). -/
def isHashable : Option Json → Bool
  | some (Json.obj _) => false
  | some (Json.arr _) => false
  | _ => true

/-- Python `str()` of a decoded value, as interpolated into the
`f"Unknown action: {tool_name}"` message.  Containers never reach this
interpolation (they fail the hashability check first), so their
rendering—and the rendering of float lexemes—is approximated. -/
def pyStr : Json → String
  | Json.null => "None"
  | Json.bool true => "True"
  | Json.bool false => "False"
  | Json.num n => toString n
  | Json.fnum lexeme => lexeme
  | Json.str s => s
  | j => json_dumps j

/-- Python `str()` of `action.get("tool_name")`, which is `None` when
the key is absent. -/
def pyStrOpt : Option Json → String
  | none => "None"
  | some j => pyStr j

/-- Whether a tool result dict contains the `"terminate"` key
(the loop's termination check `"terminate" in result`). -/
def hasTerm (result : List (String × Json)) : Bool :=
  result.any (fun kv => kv.1 == "terminate")

/-- The `Agent.tool_map` lookup and call,
`self.tool_map.get(tool_name, default)(args)`: the four registered
tools, the unknown-action default, the `TypeError` on unhashable
tool names, and the `KeyError`/`TypeError` raised by the lambdas'
`args[...]` subscripts. -/
def dispatch (fs : FS) (tool_name : Option Json) (args : Json) :
    Except String (List (String × Json)) :=
  match tool_name with
  | some (Json.obj _) => Except.error "TypeError: unhashable type: \x27dict\x27"
  | some (Json.arr _) => Except.error "TypeError: unhashable type: \x27list\x27"
  | some (Json.str s) =>
    if s = "list_files" then
      Except.ok [("result", Json.arr ((ToolExecutor.list_files fs).map Json.str))]
    else if s = "read_file" then
      match pySubscript args "file_name" with
      | Except.error e => Except.error e
      | Except.ok (Json.str name) =>
        Except.ok [("result", Json.str (ToolExecutor.read_file fs name))]
      | Except.ok _ =>
        Except.ok [("result", Json.str ("Error: " ++ openTypeErrorMsg))]
    else if s = "terminate" then
      match pySubscript args "message" with
      | Except.error e => Except.error e
      | Except.ok v => Except.ok [("terminate", v)]
    else if s = "error" then
      match pySubscript args "message" with
      | Except.error e => Except.error e
      | Except.ok v => Except.ok [("error", v)]
    else
      Except.ok [("error", Json.str ("Unknown action: " ++ s))]
  | other =>
    Except.ok [("error", Json.str ("Unknown action: " ++ pyStrOpt other))]

/-- The system-rules message list built by `Agent._load_rules`.  The
literal prompt text (tool documentation and format instructions) is
passed to the model unexamined and never inspected by any code path,
so it is kept abstract as a named constant here. -/
def agent_rules_content : String :=
  "You are an AI agent that can perform tasks by using available tools."

/-- `self.agent_rules`: a single system message. -/
def agent_rules : List Message :=
  [⟨"system", agent_rules_content⟩]

/-- Record of one loop iteration that reached the dispatch: the prompt
sent to the model, the raw model reply, and the dispatched tool
result. -/
structure IterRec where
  prompt : List Message
  response : String
  result : List (String × Json)

/-- Why `Agent.run` stopped. -/
inductive HaltCause where
  | terminated : HaltCause
  | maxIterations : HaltCause

/-- Final state of a completed (non-crashing) `Agent.run`. -/
structure RunResult where
  cause : HaltCause
  memory : List Message
  trace : List IterRec

/-- State left behind by an `Agent.run` that raised: the exception
message plus `self.memory` and the completed iterations at the moment
of the crash (the `Agent` object retains its memory when `run`
propagates an exception). -/
structure CrashInfo where
  err : String
  memory : List Message
  trace : List IterRec

/-- The two memory entries appended by a non-terminal iteration. -/
def twoEntries (it : IterRec) : List Message :=
  [⟨"assistant", it.response⟩, ⟨"user", json_dumps (Json.obj it.result)⟩]

/-- Memory contribution of a list of completed non-terminal
iterations. -/
def flatTwo : List IterRec → List Message
  | [] => []
  | it :: its => twoEntries it ++ flatTwo its

/-- Specification-side statement that a sequence of iterations each
sent the model the system rules followed by the full memory so far,
where the memory grows by exactly the two entries of each completed
iteration. -/
def promptsOK : List Message → List IterRec → Prop
  | _, [] => True
  | memory, it :: its =>
    it.prompt = agent_rules ++ memory ∧ promptsOK (memory ++ twoEntries it) its

/-- The body of the `for i in range(self.max_iterations)` loop of
`Agent.run`.  `oracle` models `self.llm.generate_response`; each
iteration builds `prompt = self.agent_rules + self.memory`, parses the
reply, dispatches through `tool_map`, breaks when the result holds
`"terminate"`, and otherwise appends the reply and the serialized
result to memory.  A `.error` is an uncaught Python exception. -/
def Agent.runLoop (fs : FS) (oracle : List Message → String) :
    Nat → List Message → List IterRec → Except CrashInfo RunResult
  | 0, memory, trace => Except.ok ⟨HaltCause.maxIterations, memory, trace⟩
  | r + 1, memory, trace =>
    match parse_action (oracle (agent_rules ++ memory)) with
    | Except.error e => Except.error ⟨e, memory, trace⟩
    | Except.ok action =>
      match pyGetMethod action "tool_name" with
      | Except.error e => Except.error ⟨e, memory, trace⟩
      | Except.ok tool_name =>
        match pyGetMethod action "args" with
        | Except.error e => Except.error ⟨e, memory, trace⟩
        | Except.ok argsOpt =>
          match dispatch fs tool_name (argsOpt.getD (Json.obj [])) with
          | Except.error e => Except.error ⟨e, memory, trace⟩
          | Except.ok result =>
            if hasTerm result then
              Except.ok ⟨HaltCause.terminated, memory,
                trace ++ [⟨agent_rules ++ memory, oracle (agent_rules ++ memory), result⟩]⟩
            else
              Agent.runLoop fs oracle r
                (memory ++ [⟨"assistant", oracle (agent_rules ++ memory)⟩,
                            ⟨"user", json_dumps (Json.obj result)⟩])
                (trace ++ [⟨agent_rules ++ memory, oracle (agent_rules ++ memory), result⟩])

/-- `Agent.run(user_task)`: reset memory to the single user-task
message and run up to `max_iterations` iterations. -/
def Agent.run (fs : FS) (oracle : List Message → String)
    (user_task : String) (max_iterations : Nat) : Except CrashInfo RunResult :=
  Agent.runLoop fs oracle max_iterations [⟨"user", user_task⟩] []

/-- `Environment.execute_action` from `src/core/game.py`: apply the
action's function to the arguments (`**args` keyword splat and any
exception inside it are both modelled by the function's `Except`
result); wrap success via `format_result` with a timestamp, and wrap a
raised exception into the `tool_executed: false` dict.  `now` models
`time.strftime(...)` and `tb` models `traceback.format_exc()`. -/
def Environment.execute_action (f : Json → Except String Json) (args : Json)
    (now : String) (tb : String → String) : List (String × Json) :=
  match f args with
  | Except.ok r =>
    [("tool_executed", Json.bool true), ("result", r), ("timestamp", Json.str now)]
  | Except.error e =>
    [("tool_executed", Json.bool false), ("error", Json.str e),
     ("traceback", Json.str (tb e))]

/-- `QuasiAgent._extract_code_block` from `src/quasi_agent.py`: with no
``` fence the reply is returned verbatim; otherwise `split("```")[1]`
is stripped and a leading `python` tag (6 characters) is dropped
without re-stripping. -/
def extract_code_block (response : String) : String :=
  match splitTicks response.toList with
  | [_] => response
  | _ :: b :: _ =>
    let cb := pyStripChars b
    if ("python".toList).isPrefixOf cb then String.mk (cb.drop 6) else String.mk cb
  | _ => response

/-- The stem built by `QuasiAgent._build_filename` before `".py"` is
appended: lowercase the description, keep alphanumerics and
whitespace, replace spaces (only the space character) by underscores,
truncate to 30 characters. -/
def buildStem (description : String) : List Char :=
  ((((description.toList.map pyToLower).filter
      (fun c => pyIsAlnum c || pyIsSpace c)).map
      (fun c => if c = ' ' then '_' else c)).take 30)

/-- `QuasiAgent._build_filename`. -/
def build_filename (description : String) : String :=
  String.mk (buildStem description) ++ ".py"

/-- The system message opening the `QuasiAgent` conversation. -/
def quasiSysMsg : Message :=
  ⟨"system", "You are a Python expert helping to develop a function"⟩

/-- The first user prompt of `develop_custom_function`. -/
def quasiGenMsg (function_description : String) : String :=
  "Write a Python function that " ++ function_description ++
  ". Output the function in a ```python code block```."

/-- The second user prompt (documentation step). -/
def quasiDocMsg : String :=
  "Add a comprehensive documentation to this function, including " ++
  "description, parameters, return value, examples, and edge cases. " ++
  "Output the function in a ```python code block```."

/-- The third user prompt (test-generation step). -/
def quasiTestMsg : String :=
  "Add unittest test cases for this function, including tests for basic " ++
  "functionality, edge cases, error cases and various input scenarios. " ++
  "Output the code in a ```python code block```."

/-- Everything `QuasiAgent.develop_custom_function` produces: the three
prompts sent to the model, the intermediate and final code strings,
the file name, and the content written to disk. -/
structure QuasiResult where
  prompts : List (List Message)
  base_function : String
  documented_function : String
  test_cases : String
  filename : String
  file_content : String

/-- `QuasiAgent.develop_custom_function` with the interactive
description and the LLM modelled as inputs: three sequential
`generate_response` calls on a growing message list, extraction of
each code block, and the final file write of
`documented_function + "\n\n" + test_cases`. -/
def develop_custom_function (oracle : List Message → String)
    (function_description : String) : QuasiResult :=
  let m1 := [quasiSysMsg, ⟨"user", quasiGenMsg function_description⟩]
  let base_function := extract_code_block (oracle m1)
  let m3 := m1 ++ [⟨"assistant", "```python\n" ++ base_function ++ "\n```"⟩,
                   ⟨"user", quasiDocMsg⟩]
  let documented_function := extract_code_block (oracle m3)
  let m5 := m3 ++ [⟨"assistant", "```python\n" ++ documented_function ++ "\n```"⟩,
                   ⟨"user", quasiTestMsg⟩]
  let test_cases := extract_code_block (oracle m5)
  ⟨[m1, m3, m5], base_function, documented_function, test_cases,
    build_filename function_description,
    documented_function ++ "\n\n" ++ test_cases⟩

/-- A minimal concrete filesystem for evaluating runs. -/
def exFS : FS := ⟨[], fun _ => ReadOutcome.notFound⟩

/-- A model reply invoking `terminate` with a summary message. -/
def termReply : String :=
  "\x7b\"tool_name\": \"terminate\", \"args\": \x7b\"message\": \"done\"\x7d\x7d"

/-- A model that always replies with `termReply`. -/
def termOracle : List Message → String := fun _ => termReply

/-- The run result of `Agent.run exFS termOracle "task" 3`. -/
def termRunResult : RunResult :=
  ⟨HaltCause.terminated, [⟨"user", "task"⟩],
   [⟨agent_rules ++ [⟨"user", "task"⟩], termReply, [("terminate", Json.str "done")]⟩]⟩

/-- A model reply invoking an unregistered tool name. -/
def noopReply : String :=
  "\x7b\"tool_name\": \"noop\", \"args\": \x7b\x7d\x7d"

/-- A model that always replies with `noopReply`. -/
def noopOracle : List Message → String := fun _ => noopReply

/-- The serialized unknown-action result appended to memory. -/
def noopResultText : String :=
  "\x7b\"error\": \"Unknown action: noop\"\x7d"

/-- The run result of `Agent.run exFS noopOracle "t" 2`. -/
def noopRunResult : RunResult :=
  ⟨HaltCause.maxIterations,
   [⟨"user", "t"⟩,
    ⟨"assistant", noopReply⟩, ⟨"user", noopResultText⟩,
    ⟨"assistant", noopReply⟩, ⟨"user", noopResultText⟩],
   [⟨agent_rules ++ [⟨"user", "t"⟩], noopReply,
     [("error", Json.str "Unknown action: noop")]⟩,
    ⟨agent_rules ++ [⟨"user", "t"⟩, ⟨"assistant", noopReply⟩, ⟨"user", noopResultText⟩],
     noopReply, [("error", Json.str "Unknown action: noop")]⟩]⟩

/-- The membership test of `parse_action` either returns the total
membership of the key or raises the `TypeError`, depending on whether
the decoded value is a container. -/
theorem pyIn_eq (key : String) (j : Json) :
    pyIn key j =
      if isPyContainer j then Except.ok (memberOf key j)
      else Except.error ("TypeError: argument of type \x27" ++ pyTypeName j ++ "\x27 is not iterable") :=
  rfl

/-- Claim C1 (amended): for every input string whose candidate payload
either fails to decode as JSON or decodes to a container (object,
array or string), `parse_action` returns without raising: the decoded
value itself when it contains both a `tool_name` and an `args` member
(Python membership), and the synthesized error action on a decoding
failure or a missing field.  When the payload decodes to a
non-container JSON value (number, boolean or null), the membership
test `"tool_name" in response_json` raises an uncaught `TypeError`
instead. -/
theorem parse_action_spec (s : String) :
    (∀ e, json_loads (extract_markdown_block s "action") = Except.error e →
       parse_action s = Except.ok (errorAction malformedMsg)) ∧
    (∀ j, json_loads (extract_markdown_block s "action") = Except.ok j →
       isPyContainer j = true →
       parse_action s = Except.ok
         (if memberOf "tool_name" j && memberOf "args" j then j
          else errorAction missingMsg)) ∧
    (∀ j, json_loads (extract_markdown_block s "action") = Except.ok j →
       isPyContainer j = false →
       parse_action s = Except.error
         ("TypeError: argument of type \x27" ++ pyTypeName j ++ "\x27 is not iterable")) := by
  refine ⟨?_, ?_, ?_⟩
  · intro e he
    simp only [parse_action, he]
  · intro j hj hc
    simp only [parse_action, hj, pyIn_eq, hc, if_true]
    cases hm1 : memberOf "tool_name" j <;> cases hm2 : memberOf "args" j <;>
      simp [hm1, hm2]
  · intro j hj hc
    simp only [parse_action, hj, pyIn_eq, hc, if_false, Bool.false_eq_true]

/-- Witness for C1: a payload decoding to an object with both fields
is returned as parsed. -/
theorem parse_action_spec_witness :
    parse_action "\x7b\"tool_name\": \"x\", \"args\": \x7b\x7d\x7d" =
      Except.ok (Json.obj [("tool_name", Json.str "x"), ("args", Json.obj [])]) :=
  (parse_action_spec "\x7b\"tool_name\": \"x\", \"args\": \x7b\x7d\x7d").2.1
    (Json.obj [("tool_name", Json.str "x"), ("args", Json.obj [])]) rfl rfl

/-- Counterexample to C1 as stated: on the input `"5"` the candidate
payload decodes to the integer `5` and `parse_action` raises a
`TypeError` instead of returning a value. -/
theorem parse_action_raises_cex :
    parse_action "5" =
      Except.error "TypeError: argument of type \x27int\x27 is not iterable" :=
  rfl

/-- Claim C8: every dictionary returned by `parse_action` contains both
a `tool_name` key and an `args` key — the success branch requires both
members and every synthesized error action carries both. -/
theorem parse_action_fields (s : String) (kvs : List (String × Json))
    (h : parse_action s = Except.ok (Json.obj kvs)) :
    kvs.any (fun kv => kv.1 == "tool_name") = true ∧
    kvs.any (fun kv => kv.1 == "args") = true := by
  cases hl : json_loads (extract_markdown_block s "action") with
  | error e =>
    simp only [parse_action, hl, errorAction, Except.ok.injEq, Json.obj.injEq] at h
    subst h
    exact ⟨rfl, rfl⟩
  | ok j =>
    simp only [parse_action, hl] at h
    cases hp1 : pyIn "tool_name" j with
    | error e => rw [hp1] at h; exact absurd h (by simp)
    | ok b1 =>
      rw [hp1] at h
      cases b1 with
      | false =>
        simp only [errorAction, Except.ok.injEq, Json.obj.injEq] at h
        subst h
        exact ⟨rfl, rfl⟩
      | true =>
        cases hp2 : pyIn "args" j with
        | error e => rw [hp2] at h; exact absurd h (by simp)
        | ok b2 =>
          rw [hp2] at h
          cases b2 with
          | false =>
            simp only [errorAction, Except.ok.injEq, Json.obj.injEq] at h
            subst h
            exact ⟨rfl, rfl⟩
          | true =>
            simp only [Except.ok.injEq] at h
            subst h
            rw [pyIn_eq] at hp1 hp2
            simp only [isPyContainer, if_pos] at hp1 hp2
            simp only [memberOf, Except.ok.injEq] at hp1 hp2
            exact ⟨hp1, hp2⟩

/-- Witness for C8: the malformed-JSON error action carries both
fields. -/
theorem parse_action_fields_witness :
    ([("tool_name", Json.str "error"),
      ("args", Json.obj [("message", Json.str malformedMsg)])].any
        (fun kv => kv.1 == "tool_name")) = true ∧
    ([("tool_name", Json.str "error"),
      ("args", Json.obj [("message", Json.str malformedMsg)])].any
        (fun kv => kv.1 == "args")) = true :=
  parse_action_fields "nonsense"
    [("tool_name", Json.str "error"),
     ("args", Json.obj [("message", Json.str malformedMsg)])] rfl

/-- Claim C4 (amended): with tag `action`, `extract_markdown_block`
returns the stripped, tag-stripped contents of the first odd-position
piece of the ``` split whose stripped text starts with `action`; when
no such block exists it returns the input verbatim if the text has no
``` fence at all, and the whitespace-stripped input otherwise (not the
entire input text). -/
theorem extract_markdown_block_spec (s : String) :
    ((splitTicks s.toList).length = 1 → extract_markdown_block s "action" = s) ∧
    (∀ p, (oddParts (splitTicks s.toList)).find?
        (fun q => ("action".toList).isPrefixOf (pyStripChars q)) = some p →
      extract_markdown_block s "action" =
        String.mk (pyStripChars ((pyStripChars p).drop 6))) ∧
    ((splitTicks s.toList).length ≠ 1 →
      (∀ q ∈ oddParts (splitTicks s.toList),
        ("action".toList).isPrefixOf (pyStripChars q) = false) →
      extract_markdown_block s "action" = pyStrip s) := by
  rcases hsp : splitTicks s.toList with _ | ⟨a, _ | ⟨b, rest⟩⟩
  · refine ⟨fun h => by simp at h, fun p hp => ?_, fun _ hall => ?_⟩
    · exact absurd hp (by simp [oddParts])
    · simp only [extract_markdown_block, hsp, oddParts, List.find?]
  · refine ⟨fun _ => ?_, fun p hp => ?_, fun hone _ => absurd rfl hone⟩
    · simp only [extract_markdown_block, hsp]
    · exact absurd hp (by simp [oddParts])
  · refine ⟨fun h => by simp at h, fun p hp => ?_, fun _ hall => ?_⟩
    · simp only [extract_markdown_block, hsp, hp]
      rfl
    · have hnone : (oddParts (a :: b :: rest)).find?
          (fun q => ("action".toList).isPrefixOf (pyStripChars q)) = none :=
        List.find?_eq_none.mpr (fun q hq => by rw [hall q hq]; simp)
      simp only [extract_markdown_block, hsp, hnone]

/-- Witness for C4: a matching `action` block is extracted with the tag
dropped and the content stripped. -/
theorem extract_markdown_block_spec_witness :
    extract_markdown_block "x```action 42```y" "action" = "42" :=
  (extract_markdown_block_spec "x```action 42```y").2.1 ("action 42".toList) rfl

/-- Counterexample to C4 as stated: when the text contains a fence but
no `action` block, the result is the stripped text, not the entire
input. -/
theorem extract_markdown_block_entire_cex :
    extract_markdown_block " a ```b``` " "action" = "a ```b```" ∧
    (" a ```b``` " : String) ≠ "a ```b```" :=
  ⟨rfl, by decide⟩

/-- Invariant of a successful run of the agent loop: the final trace
extends the starting trace by iterations whose prompts replay the full
memory, and the loop either ran out of iterations with no terminate
result, or stopped at the first iteration whose result carried
`"terminate"` without appending its entries to memory. -/
theorem runLoop_ok_spec (fs : FS) (oracle : List Message → String) :
    ∀ (remaining : Nat) (memory : List Message) (trace : List IterRec) (res : RunResult),
      Agent.runLoop fs oracle remaining memory trace = Except.ok res →
      ∃ its : List IterRec,
        res.trace = trace ++ its ∧ promptsOK memory its ∧
        ((res.cause = HaltCause.maxIterations ∧ its.length = remaining ∧
            res.memory = memory ++ flatTwo its ∧
            ∀ it ∈ its, hasTerm it.result = false) ∨
         (res.cause = HaltCause.terminated ∧ its.length ≤ remaining ∧
            ∃ pre last, its = pre ++ [last] ∧ hasTerm last.result = true ∧
              (∀ it ∈ pre, hasTerm it.result = false) ∧
              res.memory = memory ++ flatTwo pre)) := by
  intro remaining
  induction remaining with
  | zero =>
    intro memory trace res h
    simp only [Agent.runLoop, Except.ok.injEq] at h
    subst h
    exact ⟨[], by simp, trivial, Or.inl ⟨rfl, rfl, by simp [flatTwo], by simp⟩⟩
  | succ r ih =>
    intro memory trace res h
    cases hpa : parse_action (oracle (agent_rules ++ memory)) with
    | error e => simp [Agent.runLoop, hpa] at h
    | ok action =>
      simp only [Agent.runLoop, hpa] at h
      cases htn : pyGetMethod action "tool_name" with
      | error e => simp [htn] at h
      | ok tool_name =>
        simp only [htn] at h
        cases hag : pyGetMethod action "args" with
        | error e => simp [hag] at h
        | ok argsOpt =>
          simp only [hag] at h
          cases hd : dispatch fs tool_name (argsOpt.getD (Json.obj [])) with
          | error e => simp [hd] at h
          | ok result =>
            simp only [hd] at h
            by_cases hT : hasTerm result = true
            · rw [if_pos hT] at h
              simp only [Except.ok.injEq] at h
              subst h
              refine ⟨[⟨agent_rules ++ memory, oracle (agent_rules ++ memory), result⟩],
                rfl, ⟨rfl, trivial⟩,
                Or.inr ⟨rfl, by simp, [],
                  ⟨agent_rules ++ memory, oracle (agent_rules ++ memory), result⟩,
                  rfl, hT, by simp, by simp [flatTwo]⟩⟩
            · rw [if_neg hT] at h
              obtain ⟨its', htr, hpr, hcase⟩ := ih _ _ _ h
              refine ⟨⟨agent_rules ++ memory, oracle (agent_rules ++ memory), result⟩ :: its',
                by rw [htr]; simp, ⟨rfl, hpr⟩, ?_⟩
              rcases hcase with ⟨hc, hlen, hmem, hall⟩ | ⟨hc, hlen, pre, last, hits, hlast, hall, hmem⟩
              · refine Or.inl ⟨hc, by simp [hlen], ?_, ?_⟩
                · rw [hmem]; simp [flatTwo, twoEntries]
                · intro it hit
                  rcases List.mem_cons.mp hit with rfl | hmem2
                  · exact (Bool.not_eq_true _).mp hT
                  · exact hall it hmem2
              · refine Or.inr ⟨hc, by simp; omega,
                  ⟨agent_rules ++ memory, oracle (agent_rules ++ memory), result⟩ :: pre,
                  last, by rw [hits]; simp, hlast, ?_, ?_⟩
                · intro it hit
                  rcases List.mem_cons.mp hit with rfl | hmem2
                  · exact (Bool.not_eq_true _).mp hT
                  · exact hall it hmem2
                · rw [hmem]; simp [flatTwo, twoEntries]

/-- Invariant of a crashing run of the agent loop: the crash preserves
the memory of the completed iterations (each of which appended its two
entries and had no terminate result) and their prompts replayed the
full memory. -/
theorem runLoop_err_spec (fs : FS) (oracle : List Message → String) :
    ∀ (remaining : Nat) (memory : List Message) (trace : List IterRec) (c : CrashInfo),
      Agent.runLoop fs oracle remaining memory trace = Except.error c →
      ∃ its : List IterRec,
        c.trace = trace ++ its ∧ promptsOK memory its ∧
        (∀ it ∈ its, hasTerm it.result = false) ∧
        c.memory = memory ++ flatTwo its := by
  intro remaining
  induction remaining with
  | zero =>
    intro memory trace c h
    simp [Agent.runLoop] at h
  | succ r ih =>
    intro memory trace c h
    cases hpa : parse_action (oracle (agent_rules ++ memory)) with
    | error e =>
      simp only [Agent.runLoop, hpa, Except.error.injEq] at h
      subst h
      exact ⟨[], by simp, trivial, by simp, by simp [flatTwo]⟩
    | ok action =>
      simp only [Agent.runLoop, hpa] at h
      cases htn : pyGetMethod action "tool_name" with
      | error e =>
        simp only [htn, Except.error.injEq] at h
        subst h
        exact ⟨[], by simp, trivial, by simp, by simp [flatTwo]⟩
      | ok tool_name =>
        simp only [htn] at h
        cases hag : pyGetMethod action "args" with
        | error e =>
          simp only [hag, Except.error.injEq] at h
          subst h
          exact ⟨[], by simp, trivial, by simp, by simp [flatTwo]⟩
        | ok argsOpt =>
          simp only [hag] at h
          cases hd : dispatch fs tool_name (argsOpt.getD (Json.obj [])) with
          | error e =>
            simp only [hd, Except.error.injEq] at h
            subst h
            exact ⟨[], by simp, trivial, by simp, by simp [flatTwo]⟩
          | ok result =>
            simp only [hd] at h
            by_cases hT : hasTerm result = true
            · rw [if_pos hT] at h
              exact absurd h (by simp)
            · rw [if_neg hT] at h
              obtain ⟨its', htr, hpr, hall, hmem⟩ := ih _ _ _ h
              refine ⟨⟨agent_rules ++ memory, oracle (agent_rules ++ memory), result⟩ :: its',
                by rw [htr]; simp, ⟨rfl, hpr⟩, ?_, ?_⟩
              · intro it hit
                rcases List.mem_cons.mp hit with rfl | hmem2
                · exact (Bool.not_eq_true _).mp hT
                · exact hall it hmem2
              · rw [hmem]; simp [flatTwo, twoEntries]

/-- Claim C2 (amended): provided no iteration raises an exception
(i.e. the run returns a result rather than crashing), `Agent.run`
halts either at the first iteration whose dispatched tool result
contains the `"terminate"` key, or after exactly `max_iterations`
iterations, whichever comes first; the max-iterations cause is
reported exactly when no iteration produced a terminate result, and
never together with explicit termination. -/
theorem agent_run_halting (fs : FS) (oracle : List Message → String)
    (user_task : String) (max_iterations : Nat) (res : RunResult)
    (h : Agent.run fs oracle user_task max_iterations = Except.ok res) :
    ((res.cause = HaltCause.maxIterations ∧ res.trace.length = max_iterations ∧
        ∀ it ∈ res.trace, hasTerm it.result = false) ∨
     (res.cause = HaltCause.terminated ∧ res.trace.length ≤ max_iterations ∧
        ∃ pre last, res.trace = pre ++ [last] ∧ hasTerm last.result = true ∧
          ∀ it ∈ pre, hasTerm it.result = false)) ∧
    (res.cause = HaltCause.maxIterations ↔
      ∀ it ∈ res.trace, hasTerm it.result = false) := by
  obtain ⟨its, htr, -, hcase⟩ :=
    runLoop_ok_spec fs oracle max_iterations [⟨"user", user_task⟩] [] res h
  rw [List.nil_append] at htr
  subst htr
  rcases hcase with ⟨hc, hlen, -, hall⟩ | ⟨hc, hlen, pre, last, hits, hlast, hall, -⟩
  · exact ⟨Or.inl ⟨hc, hlen, hall⟩, ⟨fun _ => hall, fun _ => hc⟩⟩
  · refine ⟨Or.inr ⟨hc, hlen, pre, last, hits, hlast, hall⟩,
      ⟨fun hcc => ?_, fun hnl => ?_⟩⟩
    · rw [hc] at hcc
      cases hcc
    · have hfalse : hasTerm last.result = false :=
        hnl last (by rw [hits]; exact List.mem_append_right _ (List.mem_singleton_self _))
      rw [hlast] at hfalse
      cases hfalse

/-- Witness for C2: a run that terminates on its first iteration
satisfies the halting dichotomy. -/
theorem agent_run_halting_witness :
    termRunResult.cause = HaltCause.maxIterations ↔
      ∀ it ∈ termRunResult.trace, hasTerm it.result = false :=
  (agent_run_halting exFS termOracle "task" 3 termRunResult rfl).2

/-- Counterexample to C2 as stated: with replies whose `terminate`
action carries no `message` argument, `Agent.run` raises a `KeyError`
from `args["message"]` — it halts by an uncaught exception, neither by
a terminate result nor by reaching the iteration cap. -/
theorem agent_run_crash_cex :
    Agent.run exFS
      (fun _ => "\x7b\"tool_name\": \"terminate\", \"args\": \x7b\x7d\x7d") "go" 10 =
    Except.error ⟨"KeyError: \x27message\x27", [⟨"user", "go"⟩], []⟩ :=
  rfl

/-- Each completed non-terminal iteration contributes exactly two
memory entries. -/
theorem flatTwo_length (its : List IterRec) :
    (flatTwo its).length = 2 * its.length := by
  induction its with
  | nil => rfl
  | cons it its ih =>
    simp only [flatTwo, twoEntries, List.length_append, List.length_cons,
      List.length_nil, ih]
    omega

/-- Claim C3: during `Agent.run` every completed non-terminal iteration
appends exactly two entries to memory — the assistant reply then the
JSON-serialized tool result — so the memory is the initial user task
followed by two entries per completed iteration (`1 + 2·k` entries
after `k` of them), the prompt of every call replays the system rules
followed by the full memory so far, and a terminating iteration
appends nothing.  This holds both for runs that return and for runs
that crash mid-iteration (the crashing iteration appends nothing). -/
theorem agent_run_memory (fs : FS) (oracle : List Message → String)
    (user_task : String) (max_iterations : Nat) :
    (∀ res, Agent.run fs oracle user_task max_iterations = Except.ok res →
       promptsOK [⟨"user", user_task⟩] res.trace ∧
       (res.cause = HaltCause.maxIterations →
          res.memory = ⟨"user", user_task⟩ :: flatTwo res.trace ∧
          res.memory.length = 1 + 2 * res.trace.length) ∧
       (res.cause = HaltCause.terminated →
          ∃ pre last, res.trace = pre ++ [last] ∧
            res.memory = ⟨"user", user_task⟩ :: flatTwo pre ∧
            res.memory.length = 1 + 2 * pre.length)) ∧
    (∀ c, Agent.run fs oracle user_task max_iterations = Except.error c →
       promptsOK [⟨"user", user_task⟩] c.trace ∧
       c.memory = ⟨"user", user_task⟩ :: flatTwo c.trace ∧
       c.memory.length = 1 + 2 * c.trace.length) := by
  constructor
  · intro res h
    obtain ⟨its, htr, hpr, hcase⟩ :=
      runLoop_ok_spec fs oracle max_iterations [⟨"user", user_task⟩] [] res h
    rw [List.nil_append] at htr
    subst htr
    refine ⟨hpr, ?_, ?_⟩
    · intro hc
      rcases hcase with ⟨-, -, hmem, -⟩ | ⟨hc2, -⟩
      · refine ⟨by rw [hmem]; simp, ?_⟩
        rw [hmem]
        simp [flatTwo_length]
        omega
      · rw [hc] at hc2
        cases hc2
    · intro hc
      rcases hcase with ⟨hc2, -⟩ | ⟨-, -, pre, last, hits, -, -, hmem⟩
      · rw [hc] at hc2
        cases hc2
      · exact ⟨pre, last, hits, by rw [hmem]; simp,
          by rw [hmem]; simp [flatTwo_length]; omega⟩
  · intro c h
    obtain ⟨its, htr, hpr, -, hmem⟩ :=
      runLoop_err_spec fs oracle max_iterations [⟨"user", user_task⟩] [] c h
    rw [List.nil_append] at htr
    subst htr
    exact ⟨hpr, by rw [hmem]; simp, by rw [hmem]; simp [flatTwo_length]; omega⟩

/-- Witness for C3: the two-iteration capped run holds `1 + 2·2`
memory entries, the serialized results included. -/
theorem agent_run_memory_witness :
    noopRunResult.memory = ⟨"user", "t"⟩ :: flatTwo noopRunResult.trace ∧
    noopRunResult.memory.length = 1 + 2 * noopRunResult.trace.length :=
  ((agent_run_memory exFS noopOracle "t" 2).1 noopRunResult rfl).2.1 rfl

/-- Claim C9 (amended): for every parsed action whose `tool_name` is
hashable (not a dict or list) and not one of the four registered
names, the loop dispatches to the default handler, which returns
`{"error": "Unknown action: <tool_name>"}`; that result never contains
the `"terminate"` key, so such an iteration appends its two memory
entries and the loop continues with one fewer remaining iteration.
(An unhashable `tool_name` instead raises a `TypeError` from the
tool-map lookup; see the counterexample.) -/
theorem dispatch_unknown_default (fs : FS) (tn : Option Json) (args : Json)
    (hh : isHashable tn = true)
    (h1 : tn ≠ some (Json.str "list_files")) (h2 : tn ≠ some (Json.str "read_file"))
    (h3 : tn ≠ some (Json.str "terminate")) (h4 : tn ≠ some (Json.str "error")) :
    dispatch fs tn args =
      Except.ok [("error", Json.str ("Unknown action: " ++ pyStrOpt tn))] ∧
    hasTerm [("error", Json.str ("Unknown action: " ++ pyStrOpt tn))] = false ∧
    (∀ oracle r memory trace action,
       parse_action (oracle (agent_rules ++ memory)) = Except.ok action →
       pyGetMethod action "tool_name" = Except.ok tn →
       pyGetMethod action "args" = Except.ok (some args) →
       Agent.runLoop fs oracle (r + 1) memory trace =
         Agent.runLoop fs oracle r
           (memory ++ [⟨"assistant", oracle (agent_rules ++ memory)⟩,
             ⟨"user", json_dumps (Json.obj
               [("error", Json.str ("Unknown action: " ++ pyStrOpt tn))])⟩])
           (trace ++ [⟨agent_rules ++ memory, oracle (agent_rules ++ memory),
             [("error", Json.str ("Unknown action: " ++ pyStrOpt tn))]⟩])) := by
  have hdisp : dispatch fs tn args =
      Except.ok [("error", Json.str ("Unknown action: " ++ pyStrOpt tn))] := by
    cases tn with
    | none => rfl
    | some j =>
      cases j with
      | obj kvs => simp [isHashable] at hh
      | arr xs => simp [isHashable] at hh
      | str s =>
        have hs1 : ¬s = "list_files" := fun hc => h1 (by rw [hc])
        have hs2 : ¬s = "read_file" := fun hc => h2 (by rw [hc])
        have hs3 : ¬s = "terminate" := fun hc => h3 (by rw [hc])
        have hs4 : ¬s = "error" := fun hc => h4 (by rw [hc])
        simp [dispatch, hs1, hs2, hs3, hs4, pyStrOpt, pyStr]
      | null => rfl
      | bool b => rfl
      | num n => rfl
      | fnum lexeme => rfl
  have hnt : hasTerm [("error", Json.str ("Unknown action: " ++ pyStrOpt tn))] = false := by
    simp [hasTerm]
  refine ⟨hdisp, hnt, ?_⟩
  intro oracle r memory trace action hpa htn hag
  simp only [Agent.runLoop, hpa, htn, hag, Option.getD_some, hdisp, hnt,
    Bool.false_eq_true, if_false]

/-- Witness for C9: the unregistered tool name `noop` is sent to the
default handler. -/
theorem dispatch_unknown_default_witness :
    dispatch exFS (some (Json.str "noop")) (Json.obj []) =
      Except.ok [("error", Json.str ("Unknown action: " ++ pyStrOpt (some (Json.str "noop"))))] :=
  (dispatch_unknown_default exFS (some (Json.str "noop")) (Json.obj []) rfl
    (by intro hc; injection hc with a; injection a with b; exact absurd b (by decide))
    (by intro hc; injection hc with a; injection a with b; exact absurd b (by decide))
    (by intro hc; injection hc with a; injection a with b; exact absurd b (by decide))
    (by intro hc; injection hc with a; injection a with b; exact absurd b (by decide))).1

/-- Counterexample to C9 as stated: the parsed action
`{"tool_name": {}, "args": {}}` has a `tool_name` that is not one of
the four registered names, yet the loop does not dispatch to the
default handler and continue — `tool_map.get` raises `TypeError`
(dicts are unhashable) and the run crashes on its first iteration. -/
theorem agent_run_unhashable_cex :
    parse_action "\x7b\"tool_name\": \x7b\x7d, \"args\": \x7b\x7d\x7d" =
      Except.ok (Json.obj [("tool_name", Json.obj []), ("args", Json.obj [])]) ∧
    Agent.run exFS (fun _ => "\x7b\"tool_name\": \x7b\x7d, \"args\": \x7b\x7d\x7d") "go" 5 =
      Except.error ⟨"TypeError: unhashable type: \x27dict\x27", [⟨"user", "go"⟩], []⟩ :=
  ⟨rfl, rfl⟩

/-- Claim C5: file reads and tool execution never propagate
exceptions — `ToolExecutor.read_file` returns the content on success
and an error-message string on `FileNotFoundError` or any other
exception, and `Environment.execute_action` returns the
`tool_executed: true` dict with the result on success and the
`tool_executed: false` dict with the error text when the action's
function raises. -/
theorem error_handling_spec :
    (∀ (fs : FS) name c, fs.read name = ReadOutcome.content c →
       ToolExecutor.read_file fs name = c) ∧
    (∀ (fs : FS) name, fs.read name = ReadOutcome.notFound →
       ToolExecutor.read_file fs name = "Error: File \x27" ++ name ++ "\x27 not found.") ∧
    (∀ (fs : FS) name m, fs.read name = ReadOutcome.raises m →
       ToolExecutor.read_file fs name = "Error: " ++ m) ∧
    (∀ (f : Json → Except String Json) args now tb r, f args = Except.ok r →
       Environment.execute_action f args now tb =
         [("tool_executed", Json.bool true), ("result", r), ("timestamp", Json.str now)]) ∧
    (∀ (f : Json → Except String Json) args now tb e, f args = Except.error e →
       Environment.execute_action f args now tb =
         [("tool_executed", Json.bool false), ("error", Json.str e),
          ("traceback", Json.str (tb e))]) := by
  refine ⟨?_, ?_, ?_, ?_, ?_⟩
  · intro fs name c h
    simp only [ToolExecutor.read_file, h]
  · intro fs name h
    simp only [ToolExecutor.read_file, h]
  · intro fs name m h
    simp only [ToolExecutor.read_file, h]
  · intro f args now tb r h
    simp only [Environment.execute_action, h]
  · intro f args now tb e h
    simp only [Environment.execute_action, h]

/-- Witness for C5: a missing file produces the not-found message and a
successful action function produces the `tool_executed: true` dict. -/
theorem error_handling_spec_witness :
    ToolExecutor.read_file exFS "x" = "Error: File \x27x\x27 not found." ∧
    Environment.execute_action (fun _ => Except.ok Json.null) (Json.obj []) "ts" (fun e => e) =
      [("tool_executed", Json.bool true), ("result", Json.null), ("timestamp", Json.str "ts")] :=
  ⟨error_handling_spec.2.1 exFS "x" rfl,
   error_handling_spec.2.2.2.1 (fun _ => Except.ok Json.null) (Json.obj []) "ts"
     (fun e => e) Json.null rfl⟩

/-- Claim C6: the tool map sends `list_files` (ignoring its argument)
to the directory listing, `read_file` to the file content or error
string, `terminate` to `{"terminate": <message>}` and `error` to
`{"error": <message>}`; and among all successful dispatches only the
`terminate` tool yields a result containing the termination signal. -/
theorem tool_map_spec (fs : FS) (args : Json) :
    dispatch fs (some (Json.str "list_files")) args =
      Except.ok [("result", Json.arr ((ToolExecutor.list_files fs).map Json.str))] ∧
    (∀ name, pySubscript args "file_name" = Except.ok (Json.str name) →
       dispatch fs (some (Json.str "read_file")) args =
         Except.ok [("result", Json.str (ToolExecutor.read_file fs name))]) ∧
    (∀ v, pySubscript args "message" = Except.ok v →
       dispatch fs (some (Json.str "terminate")) args = Except.ok [("terminate", v)] ∧
       dispatch fs (some (Json.str "error")) args = Except.ok [("error", v)]) ∧
    (∀ tn res, dispatch fs tn args = Except.ok res →
       (hasTerm res = true ↔ tn = some (Json.str "terminate"))) := by
  refine ⟨rfl, ?_, ?_, ?_⟩
  · intro name h
    simp [dispatch, h]
  · intro v h
    constructor <;> simp [dispatch, h]
  · intro tn res h
    cases tn with
    | none =>
      simp only [dispatch, Except.ok.injEq] at h
      subst h
      simp [hasTerm]
    | some j =>
      cases j with
      | obj kvs => simp [dispatch] at h
      | arr xs => simp [dispatch] at h
      | null =>
        simp only [dispatch, Except.ok.injEq] at h
        subst h
        simp [hasTerm]
      | bool b =>
        simp only [dispatch, Except.ok.injEq] at h
        subst h
        simp [hasTerm]
      | num n =>
        simp only [dispatch, Except.ok.injEq] at h
        subst h
        simp [hasTerm]
      | fnum lexeme =>
        simp only [dispatch, Except.ok.injEq] at h
        subst h
        simp [hasTerm]
      | str s =>
        by_cases hs1 : s = "list_files"
        · subst hs1
          simp [dispatch] at h
          subst h
          simp [hasTerm]
        · by_cases hs2 : s = "read_file"
          · subst hs2
            rcases hsub : pySubscript args "file_name" with e | v
            · simp [dispatch, hsub] at h
            · cases v <;> simp [dispatch, hsub] at h <;>
                subst h <;> simp [hasTerm]
          · by_cases hs3 : s = "terminate"
            · subst hs3
              rcases hsub : pySubscript args "message" with e | v
              · simp [dispatch, hsub] at h
              · simp [dispatch, hsub] at h
                subst h
                simp [hasTerm]
            · by_cases hs4 : s = "error"
              · subst hs4
                rcases hsub : pySubscript args "message" with e | v
                · simp [dispatch, hsub] at h
                · simp [dispatch, hsub] at h
                  subst h
                  simp [hasTerm]
              · simp [dispatch, hs1, hs2, hs3, hs4] at h
                subst h
                simp [hasTerm, hs3]

/-- Witness for C6: the empty-directory listing and a terminate message
dispatch as mapped. -/
theorem tool_map_spec_witness :
    dispatch exFS (some (Json.str "list_files")) (Json.obj []) =
      Except.ok [("result", Json.arr ((ToolExecutor.list_files exFS).map Json.str))] ∧
    dispatch exFS (some (Json.str "terminate")) (Json.obj [("message", Json.str "bye")]) =
      Except.ok [("terminate", Json.str "bye")] :=
  ⟨(tool_map_spec exFS (Json.obj [])).1,
   ((tool_map_spec exFS (Json.obj [("message", Json.str "bye")])).2.2.1
     (Json.str "bye") rfl).1⟩

/-- Claim C7: `develop_custom_function` issues three sequential prompts
on one growing conversation — generate the function (with the user's
description), add documentation, add tests — extracts the code block
of each reply, writes a single file whose content is exactly the
documented function, two newlines, then the test cases, and returns
the triple of documented function, test cases and file name (the
`documented_function`, `test_cases` and `filename` fields). -/
theorem develop_custom_function_spec (oracle : List Message → String) (desc : String) :
    ∃ p1 p2 p3,
      (develop_custom_function oracle desc).prompts = [p1, p2, p3] ∧
      p1 = [quasiSysMsg, ⟨"user", quasiGenMsg desc⟩] ∧
      (∃ t, p2 = p1 ++ t) ∧ (∃ t, p3 = p2 ++ t) ∧
      p2.getLast? = some ⟨"user", quasiDocMsg⟩ ∧
      p3.getLast? = some ⟨"user", quasiTestMsg⟩ ∧
      (develop_custom_function oracle desc).base_function = extract_code_block (oracle p1) ∧
      (develop_custom_function oracle desc).documented_function = extract_code_block (oracle p2) ∧
      (develop_custom_function oracle desc).test_cases = extract_code_block (oracle p3) ∧
      (develop_custom_function oracle desc).file_content =
        (develop_custom_function oracle desc).documented_function ++ "\n\n" ++
          (develop_custom_function oracle desc).test_cases ∧
      (develop_custom_function oracle desc).filename = build_filename desc := by
  refine ⟨_, _, _, rfl, rfl, ⟨_, rfl⟩, ⟨_, rfl⟩, ?_, ?_, rfl, rfl, rfl, rfl, rfl⟩
  · rfl
  · rfl

/-- Evaluating `Char.ofNat` below the surrogate range. -/
theorem toNat_charOfNat {n : Nat} (h : n < 55296) : (Char.ofNat n).toNat = n := by
  have hv : n.isValidChar := Or.inl h
  rw [Char.ofNat, dif_pos hv]
  simp [Char.ofNatAux, Char.toNat, UInt32.toNat]

/-- `pyToLower` never returns an uppercase ASCII letter. -/
theorem pyToLower_not_upper (c : Char) :
    ¬(65 ≤ (pyToLower c).toNat ∧ (pyToLower c).toNat ≤ 90) := by
  unfold pyToLower
  by_cases hu : (65 ≤ c.toNat && c.toNat ≤ 90) = true
  · rw [if_pos hu]
    simp only [Bool.and_eq_true, decide_eq_true_eq] at hu
    have hofn : (Char.ofNat (c.toNat + 32)).toNat = c.toNat + 32 :=
      toNat_charOfNat (by omega)
    rw [hofn]
    omega
  · rw [if_neg hu]
    simp only [Bool.and_eq_true, decide_eq_true_eq, not_and, Nat.not_le] at hu
    intro hcon
    exact absurd (hu hcon.1) (by omega)

/-- Claim C10 (amended): for every description, `_build_filename`
returns the stem followed by `".py"`, where the stem has at most 30
characters (so the whole name has at most 34) and every stem character
is a lowercase ASCII letter, a digit, an underscore, or a whitespace
character other than the space character — only spaces are replaced by
underscores, so kept whitespace such as tabs passes through into the
stem. -/
theorem build_filename_spec (d : String) :
    build_filename d = String.mk (buildStem d ++ (".py").toList) ∧
    (buildStem d).length ≤ 30 ∧
    (build_filename d).length ≤ 34 ∧
    ∀ c ∈ buildStem d,
      (97 ≤ c.toNat ∧ c.toNat ≤ 122) ∨ (48 ≤ c.toNat ∧ c.toNat ≤ 57) ∨
      c = '_' ∨ (pyIsSpace c = true ∧ c ≠ ' ') := by
  have hlen : (buildStem d).length ≤ 30 := List.length_take_le _ _
  refine ⟨rfl, hlen, ?_, ?_⟩
  · have h2 : (build_filename d).length = (buildStem d).length + 3 := by
      simp [build_filename, String.length_append]
      rfl
    omega
  · intro c hc
    have hc2 := List.take_subset _ _ hc
    obtain ⟨x, hxmem, hxc⟩ := List.mem_map.mp hc2
    obtain ⟨hxmem2, hgx⟩ := List.mem_filter.mp hxmem
    obtain ⟨y, -, hyx⟩ := List.mem_map.mp hxmem2
    by_cases hsp : x = ' '
    · subst hsp
      simp only [if_pos rfl] at hxc
      subst hxc
      exact Or.inr (Or.inr (Or.inl rfl))
    · rw [if_neg hsp] at hxc
      subst hxc
      simp only [Bool.or_eq_true] at hgx
      rcases hgx with ha | hs
      · have hnu := pyToLower_not_upper y
        rw [hyx] at hnu
        simp only [pyIsAlnum, Bool.or_eq_true, Bool.and_eq_true, decide_eq_true_eq] at ha
        rcases ha with (h1 | h1) | h1
        · exact Or.inr (Or.inl h1)
        · exact Or.inl h1
        · exact absurd h1 hnu
      · exact Or.inr (Or.inr (Or.inr ⟨hs, hsp⟩))

/-- Witness for C10: the first character of the stem of `"ab"` is a
lowercase letter. -/
theorem build_filename_spec_witness :
    (97 ≤ ('a').toNat ∧ ('a').toNat ≤ 122) ∨ (48 ≤ ('a').toNat ∧ ('a').toNat ≤ 57) ∨
    ('a') = '_' ∨ (pyIsSpace 'a' = true ∧ 'a' ≠ ' ') :=
  (build_filename_spec "ab").2.2.2 'a' (by decide)

/-- Counterexample to C10 as stated: a tab in the description is kept
by the whitespace filter but not replaced by an underscore, so the
stem of `"a\tb"` contains a tab, which is neither a lowercase letter
nor a digit nor an underscore. -/
theorem build_filename_charset_cex :
    build_filename "a\tb" = "a\tb.py" ∧
    '\t' ∈ buildStem "a\tb" ∧
    ¬((97 ≤ '\t'.toNat ∧ '\t'.toNat ≤ 122) ∨ (48 ≤ '\t'.toNat ∧ '\t'.toNat ≤ 57) ∨
      '\t' = '_') :=
  ⟨rfl, by decide, by decide⟩
